import Mathlib

/-!
Verification development for the Savant DeepStream pipeline core
(`savant/deepstream/pipeline.py`, `savant/deepstream/source_output.py`,
`savant/meta/bbox.py`).

The Python code is shallowly embedded: float arithmetic is modelled with
exact rationals (`ℚ`), Python ints with `Int`/`Nat`, dictionaries with
functions into `Option`, and the event-driven handler callbacks with pure
state-transition functions.  Each handler execution (including the body of
the `GLib.idle_add`-deferred teardown it schedules, since the GLib main
loop serializes those callbacks) is modelled as one atomic step.
-/

namespace Savant

/-! ## Bounding boxes (`savant/meta/bbox.py`)

`BaseBBox`/`BBox` store an aligned box by center point and size; the
`top`/`left` properties and their setters are translated verbatim, with
Python floats modelled as rationals. -/

structure BBox where
  x_center : ℚ
  y_center : ℚ
  width : ℚ
  height : ℚ
  deriving DecidableEq

/-- `BBox.top` getter: `self.y_center - 0.5 * self.height`. -/
def BBox.top (b : BBox) : ℚ := b.y_center - 0.5 * b.height

/-- `BBox.top` setter: `self.y_center = value + 0.5 * self.height`. -/
def BBox.setTop (b : BBox) (value : ℚ) : BBox :=
  { b with y_center := value + 0.5 * b.height }

/-- `BBox.left` getter: `self.x_center - 0.5 * self.width`. -/
def BBox.left (b : BBox) : ℚ := b.x_center - 0.5 * b.width

/-- `BBox.left` setter: `self.x_center = value + 0.5 * self.width`. -/
def BBox.setLeft (b : BBox) (value : ℚ) : BBox :=
  { b with x_center := value + 0.5 * b.width }

/-- `BBox.bottom`: `self.y_center + 0.5 * self.height`. -/
def BBox.bottom (b : BBox) : ℚ := b.y_center + 0.5 * b.height

/-- `BBox.right`: `self.x_center + 0.5 * self.width`. -/
def BBox.right (b : BBox) : ℚ := b.x_center + 0.5 * b.width

/-- `BBox.tlbr`: `(self.left, self.top, self.right, self.bottom)`. -/
def BBox.tlbr (b : BBox) : ℚ × ℚ × ℚ × ℚ := (b.left, b.top, b.right, b.bottom)

/-! ## Destination resolutions (`savant/deepstream/source_output.py`) -/

/-- `Resolution` named tuple (width, height), Python ints.
Modelled from the spec: the class itself lives in `savant.utils.source_info`,
which is not among the provided sources; the spec describes it as the pair of
dimensions negotiated at attach time / computed for output. -/
structure Resolution where
  width : Int
  height : Int
  deriving DecidableEq

/-- Frame padding configuration.
Modelled from the spec: `savant.config.schema` is not among the provided
sources; only the `keep` flag ("whether padding is preserved") is consulted
by `SourceOutputWithFrame.dest_resolution`. -/
structure FramePadding where
  left : Int
  top : Int
  keep : Bool
  deriving DecidableEq

/-- Frame parameters (processing frame size after the muxer).
Modelled from the spec: `savant.config.schema.FrameParameters` is not among
the provided sources; `total_width`/`total_height` are the padded processing
dimensions used by the scaling formula in `source_output.py`. -/
structure FrameParameters where
  width : Int
  height : Int
  total_width : Int
  total_height : Int
  padding : Option FramePadding
  deriving DecidableEq

/-- `SourceOutputOnlyMeta.dest_resolution`: returns the source resolution
unchanged. -/
def SourceOutputOnlyMeta.dest_resolution (src : Resolution) : Resolution :=
  ⟨src.width, src.height⟩

/-- `SourceOutputWithFrame.dest_resolution`: scales the source resolution by
`total/processing` dimensions when padding is configured and kept
(`//` is Python floor division, `Int.fdiv`). -/
def SourceOutputWithFrame.dest_resolution (fp : FrameParameters) (src : Resolution) :
    Resolution :=
  match fp.padding with
  | some p =>
    if p.keep then
      ⟨Int.fdiv (src.width * fp.total_width) fp.width,
       Int.fdiv (src.height * fp.total_height) fp.height⟩
    else ⟨src.width, src.height⟩
  | none => ⟨src.width, src.height⟩

/-- Python built-in `round` on an exact rational: round half to even. -/
def pyRound (q : ℚ) : ℤ :=
  if q - ⌊q⌋ < 1 / 2 then ⌊q⌋
  else if 1 / 2 < q - ⌊q⌋ then ⌊q⌋ + 1
  else if ⌊q⌋ % 2 = 0 then ⌊q⌋ else ⌊q⌋ + 1

/-- `SourceOutputPng.dest_resolution`: the inherited destination resolution
with each dimension replaced by `round(d / 8) * 8` (Python float division
and banker's rounding, exact on these rationals). -/
def SourceOutputPng.dest_resolution (fp : FrameParameters) (src : Resolution) :
    Resolution :=
  let d := SourceOutputWithFrame.dest_resolution fp src
  ⟨pyRound ((d.width : ℚ) / 8) * 8, pyRound ((d.height : ℚ) / 8) * 8⟩

/-! ## Per-batch frame-metadata reconciliation
(`NvDsPipeline.update_frame_meta`, `NvDsPipeline.add_element`) -/

/-- Sentinel identity of an object that carries no persistent tracker id.
Modelled from the spec: `savant.meta.constants.UNTRACKED_OBJECT_ID` is not
among the provided sources; the spec describes it as the sentinel
"untracked" value (the implementation uses the maximal unsigned 64-bit
integer). -/
def UNTRACKED_OBJECT_ID : Nat := 18446744073709551615

/-- Label of the whole-frame primary object.
Modelled from the spec: `savant.meta.constants.PRIMARY_OBJECT_LABEL` is not
among the provided sources; the spec calls it the designated "whole frame"
primary label. -/
def PRIMARY_OBJECT_LABEL : String := "frame"

/-- The slice of `pyds.NvDsObjectMeta` consulted by the first loop of
`update_frame_meta` (`object_id` is a 64-bit track id, `obj_label` the model
label). -/
structure NvDsObjMeta where
  object_id : Nat
  obj_label : String
  deriving DecidableEq

/-- First loop of `update_frame_meta` over one frame's objects, with the
`object_ids = defaultdict(int)` counter state passed explicitly: an object
whose `object_id` equals `UNTRACKED_OBJECT_ID` receives
`object_ids[obj_label]` which is then incremented; other objects are left
untouched. -/
def update_object_ids : List NvDsObjMeta → (String → Nat) → List NvDsObjMeta
  | [], _ => []
  | o :: rest, object_ids =>
    if o.object_id = UNTRACKED_OBJECT_ID then
      { o with object_id := object_ids o.obj_label } ::
        update_object_ids rest
          (fun l => if l = o.obj_label then object_ids o.obj_label + 1 else object_ids l)
    else
      o :: update_object_ids rest object_ids

/-- The first loop of `update_frame_meta` for one frame: the counter starts
as `defaultdict(int)`, i.e. 0 for every label. -/
def correct_object_ids (objs : List NvDsObjMeta) : List NvDsObjMeta :=
  update_object_ids objs (fun _ => 0)

/-- One native attribute record as consulted by `update_frame_meta`
(`attr_meta.element_name`, `attr_meta.name`, and its payload). -/
structure AttrMeta where
  element_name : String
  name : String
  value : String
  deriving DecidableEq

/-- Output attribute record.
Modelled from the spec: `nvds_attr_meta_output_converter` lives in
`savant.deepstream.metadata`, which is not among the provided sources; the
spec says each native attribute record is converted into the output
representation, keeping its producer name and attribute name. -/
structure OutputAttr where
  element_name : String
  name : String
  value : String
  deriving DecidableEq

/-- Modelled from the spec: conversion of a native attribute record into the
output representation (see `OutputAttr`). -/
def nvds_attr_meta_output_converter (a : AttrMeta) : OutputAttr :=
  ⟨a.element_name, a.name, a.value⟩

/-- One native object record as consulted by the second loop of
`update_frame_meta`: its label, the bounding box produced for it by
`nvds_obj_meta_output_converter` (that converter lives in
`savant.deepstream.metadata`, which is not among the provided sources, so
its result geometry `xc`/`yc`/`width`/`height` is carried here directly —
modelled from the spec, which treats the converted geometry as the object's
geometry), and the nested attribute lists yielded by
`nvds_attr_meta_iterator`. -/
structure NvDsObjectRecord where
  obj_label : String
  out_xc : ℚ
  out_yc : ℚ
  out_w : ℚ
  out_h : ℚ
  attr_lists : List (List AttrMeta)
  deriving DecidableEq

/-- Output object record (`obj_meta` dict in the source): label, converted
bounding box, and the accumulated output attributes. -/
structure OutputObjMeta where
  label : String
  bbox_xc : ℚ
  bbox_yc : ℚ
  bbox_w : ℚ
  bbox_h : ℚ
  attributes : List OutputAttr
  deriving DecidableEq

/-- Modelled from the spec: `nvds_obj_meta_output_converter` builds the
output record with the converted geometry and an empty attribute list (the
loop then appends attributes to it). -/
def nvds_obj_meta_output_converter (o : NvDsObjectRecord) : OutputObjMeta :=
  ⟨o.obj_label, o.out_xc, o.out_yc, o.out_w, o.out_h, []⟩

/-- Body of the second loop of `update_frame_meta` for one object: convert
it, then append the conversion of every attribute whose
`(element_name, name)` pair is not in `self._internal_attrs` (the two nested
`for` loops over `nvds_attr_meta_iterator` traverse the nested lists in
order, which is `List.flatten` order). -/
def collect_object (internal_attrs : List (String × String)) (o : NvDsObjectRecord) :
    OutputObjMeta :=
  { nvds_obj_meta_output_converter o with
    attributes :=
      (o.attr_lists.flatten.filter
        (fun a => decide ((a.element_name, a.name) ∉ internal_attrs))).map
        nvds_attr_meta_output_converter }

/-- The degenerate-object test of `update_frame_meta`: label equals
`PRIMARY_OBJECT_LABEL`, the converted bbox equals exactly
`(dest_w / 2, dest_h / 2, dest_w, dest_h)` (Python `/` on ints is exact
float division, modelled in `ℚ`), and the filtered attribute list is
empty. -/
def is_empty_primary_object (internal_attrs : List (String × String))
    (dest : Resolution) (o : NvDsObjectRecord) : Prop :=
  o.obj_label = PRIMARY_OBJECT_LABEL ∧
    ((collect_object internal_attrs o).bbox_xc,
      (collect_object internal_attrs o).bbox_yc,
      (collect_object internal_attrs o).bbox_w,
      (collect_object internal_attrs o).bbox_h) =
      ((dest.width : ℚ) / 2, (dest.height : ℚ) / 2,
        (dest.width : ℚ), (dest.height : ℚ)) ∧
    (collect_object internal_attrs o).attributes = []

instance (internal_attrs : List (String × String)) (dest : Resolution)
    (o : NvDsObjectRecord) : Decidable (is_empty_primary_object internal_attrs dest o) :=
  inferInstanceAs (Decidable (_ ∧ _ ∧ _))

/-- Second loop of `update_frame_meta` for one frame: each object is
converted and collected, except that an object passing the
degenerate-object test is skipped (`continue`) instead of being appended to
`frame_meta.metadata` objects. -/
def update_frame_meta_objects (internal_attrs : List (String × String))
    (dest : Resolution) : List NvDsObjectRecord → List OutputObjMeta
  | [] => []
  | o :: rest =>
    if is_empty_primary_object internal_attrs dest o then
      update_frame_meta_objects internal_attrs dest rest
    else
      collect_object internal_attrs o :: update_frame_meta_objects internal_attrs dest rest

/-- One configured output attribute of a model element
(`attr.name`, `attr.internal`). -/
structure OutputAttrConfig where
  name : String
  internal : Bool
  deriving DecidableEq

/-- The slice of a configured `ModelElement` consulted by
`NvDsPipeline.add_element`: its name, its configured output attributes, and
whether its model is an `AttributeModel`/`ComplexModel` (only those have
output attributes registered). -/
structure ModelElementConfig where
  name : String
  output_attributes : List OutputAttrConfig
  attribute_model : Bool
  deriving DecidableEq

/-- Registration step of `NvDsPipeline.add_element` for one element: for an
attribute/complex model, every output attribute flagged `internal` adds the
pair `(element.name, attr.name)` to `self._internal_attrs`. -/
def add_element_internal_attrs (acc : List (String × String))
    (e : ModelElementConfig) : List (String × String) :=
  if e.attribute_model then
    acc ++ (e.output_attributes.filter (fun a => a.internal)).map (fun a => (e.name, a.name))
  else acc

/-- `self._internal_attrs` after all pipeline elements have been added. -/
def register_internal_attrs (elements : List ModelElementConfig) :
    List (String × String) :=
  elements.foldl add_element_internal_attrs []

/-! ## Demuxer src pad EOS handler (`NvDsPipeline._on_demuxer_src_pad_eos`) -/

/-- The state consulted by `_on_demuxer_src_pad_eos`: the fixed list of
allocated demuxer src pads (pads named by identifiers), and the current
peer link of each pad (`pad.get_peer()`). -/
structure DemuxerState where
  demuxer_src_pads : List Nat
  peers : Nat → Option Nat

/-- Pad-probe disposition returned by a GStreamer pad probe. -/
inductive PadProbeReturn where
  | pass
  | drop
  deriving DecidableEq

/-- `_on_demuxer_src_pad_eos`, translated from the source: parse the pad
index out of the `GST_NVEVENT_STREAM_EOS` event (`none` when unparseable);
if it is missing or the receiving pad is not the pad allocated at that
index, return `PASS` untouched (nvstreamdemux redirects the event on every
src pad); otherwise unlink the peer, send EOS to it (the returned
`Option Nat` is the pad that was sent EOS) and `DROP` the event. -/
def on_demuxer_src_pad_eos (s : DemuxerState) (pad : Nat) (parsed_pad_idx : Option Nat) :
    DemuxerState × PadProbeReturn × Option Nat :=
  match parsed_pad_idx with
  | none => (s, .pass, none)
  | some pad_idx =>
    if s.demuxer_src_pads[pad_idx]? = some pad then
      match s.peers pad with
      | none => (s, .drop, none)
      | some peer =>
        ({ s with peers := fun p => if p = pad then none else s.peers p }, .drop, some peer)
    else (s, .pass, none)

/-! ## Stream admission / release lifecycle
(`NvDsPipeline.on_source_added`, `_on_source_caps`, `_on_muxer_sink_pad_eos`
/ `_remove_input_elements`, `on_last_pad_eos` / `_remove_output_elements`)

Each handler run is one atomic step; the `GLib.idle_add`-deferred teardown
body is folded into the EOS handler that schedules it (the GLib main loop
serializes idle callbacks).  One iteration of a polling loop
(`source_info.lock.wait(5)` / the free-index pop retry) is one step that
leaves the state unchanged when it cannot make progress, so a retry is a
re-occurrence of the event. -/

/-- Kinds of per-stream GStreamer elements created by the admission path. -/
inductive ElemKind where
  | videoconvert
  | nvvideoconvert
  | capsfilter
  | queue
  | fakesink
  deriving DecidableEq

/-- `SourceInfo` (one stream's state).  The class itself lives in
`savant.utils.source_info`, which is not among the provided sources; its
fields are modelled from the spec's `StreamState`: `pad_idx` is the slot
index (`None` until admission completes), `before_muxer`/`after_demuxer`
the pre- and post-batch element lists, `lock` the release gate (a
`threading.Event`; `true` = set).  `registered` models whether the record is
currently present in the `SourceInfoRegistry` mapping (the Python object
outlives `remove_source`, since probes and closures hold it).  `caps_probe`
models whether the CAPS pad probe installed at the end of
`on_source_added` is armed (it is removed when `_on_source_caps` returns
`Gst.PadProbeReturn.REMOVE`). -/
structure SourceInfo where
  source_id : Nat
  pad_idx : Option Nat
  before_muxer : List ElemKind
  after_demuxer : List ElemKind
  src_resolution : Option Resolution
  dest_resolution : Option Resolution
  lock : Bool
  registered : Bool
  caps_probe : Bool
  deriving DecidableEq

/-- Pipeline state shared across streams: the source registry (a map from
source id to the stream's `SourceInfo`) and `self._free_pad_indices`. -/
structure PipeState where
  sources : Nat → Option SourceInfo
  free_pad_indices : List Nat

/-- Registry update: store `si` under `sid` (Python dict assignment). -/
def PipeState.setSource (s : PipeState) (sid : Nat) (si : SourceInfo) : PipeState :=
  { s with sources := fun x => if x = sid then some si else s.sources x }

/-- Modelled from the spec: `SourceInfoRegistry.init_source` creates a fresh
`StreamState` with no slot, empty element lists and — per spec §4.2 step 1 —
its release gate pre-set (not blocking), registered in the mapping. -/
def init_source (sid : Nat) : SourceInfo :=
  ⟨sid, none, [], [], none, none, true, true, false⟩

/-- Disposition of one `on_source_added` run: either it completed (the CAPS
probe was installed), or it is blocked in the
`while not source_info.lock.wait(5)` polling loop and will re-check after
the fixed 5-second interval. -/
inductive AddDisposition where
  | proceeded
  | waitingRetry (seconds : Nat)
  deriving DecidableEq

/-- `NvDsPipeline.on_source_added`, translated from the source: look the
source id up in the registry; on `KeyError` (never seen, or already removed
by `_remove_output_elements`) create a fresh record via `init_source`;
otherwise wait until the prior incarnation's release gate (`lock`) is set,
then clear it.  Completion installs the CAPS probe (`caps_probe := true`). -/
def on_source_added (s : PipeState) (sid : Nat) : PipeState × AddDisposition :=
  match s.sources sid with
  | some si =>
    if si.registered then
      if si.lock then
        (s.setSource sid { si with lock := false, caps_probe := true }, .proceeded)
      else
        (s, .waitingRetry 5)
    else
      (s.setSource sid { init_source sid with caps_probe := true }, .proceeded)
  | none =>
    (s.setSource sid { init_source sid with caps_probe := true }, .proceeded)

/-- Elements appended to `after_demuxer` by `_add_source_output`: the output
queue, then what the configured source output adds (none for the
metadata-only variant `SourceOutputOnlyMeta`, whose `add_output` inserts no
elements), then the fakesink. -/
def add_source_output_elems : List ElemKind :=
  [ElemKind.queue, ElemKind.fakesink]

/-- Elements appended to `before_muxer` by `_add_input_converter`:
`nvvideoconvert` and the frame-geometry capsfilter, preceded by a generic
`videoconvert` when `nvvideoconvert` cannot accept the negotiated caps
(the fast path is rejected). -/
def add_input_converter_elems (fast_path_ok : Bool) : List ElemKind :=
  if fast_path_ok then [ElemKind.nvvideoconvert, ElemKind.capsfilter]
  else [ElemKind.videoconvert, ElemKind.nvvideoconvert, ElemKind.capsfilter]

/-- Effect on the stream's record of the `with self._source_adding_lock`
block of `_on_source_caps`: record the negotiated source resolution, build
the post-batch output chain when `after_demuxer` is empty (setting
`dest_resolution`; the metadata-only variant keeps the source resolution),
build the pre-batch input chain, and remove the CAPS probe
(`Gst.PadProbeReturn.REMOVE`). -/
def caps_update_info (si : SourceInfo) (w h : Int) (fast_path_ok : Bool) : SourceInfo :=
  let si₁ := { si with src_resolution := some ⟨w, h⟩ }
  let si₂ :=
    if si₁.after_demuxer.isEmpty then
      { si₁ with
        after_demuxer := add_source_output_elems,
        dest_resolution := some (SourceOutputOnlyMeta.dest_resolution ⟨w, h⟩) }
    else si₁
  { si₂ with
    before_muxer := si₂.before_muxer ++ add_input_converter_elems fast_path_ok,
    caps_probe := false }

/-- Body of `_on_source_caps` once a slot index is available: update the
stream's record (`caps_update_info`) in the registry, with the free-index
list as left by the pop. -/
def on_source_caps_body (s : PipeState) (sid : Nat) (si : SourceInfo)
    (free : List Nat) (w h : Int) (fast_path_ok : Bool) : PipeState :=
  { sources := fun x => if x = sid then some (caps_update_info si w h fast_path_ok)
      else s.sources x,
    free_pad_indices := free }

/-- `NvDsPipeline._on_source_caps`, translated from the source: runs only
while the CAPS probe installed by `on_source_added` is armed.  The
`while source_info.pad_idx is None` loop pops the first free pad index
under the lock; when the free list is exhausted (`IndexError`) the handler
sleeps and retries, modelled as a no-progress step. -/
def on_source_caps (s : PipeState) (sid : Nat) (w h : Int) (fast_path_ok : Bool) :
    PipeState :=
  match s.sources sid with
  | none => s
  | some si =>
    if si.registered && si.caps_probe then
      match si.pad_idx, s.free_pad_indices with
      | none, [] => s
      | none, i :: rest =>
        on_source_caps_body s sid { si with pad_idx := some i } rest w h fast_path_ok
      | some _, _ =>
        on_source_caps_body s sid si s.free_pad_indices w h fast_path_ok
    else s

/-- `NvDsPipeline._remove_input_elements` effect on the stream's record:
every `before_muxer` element is stopped and removed from the pipeline and
the list is reset to `[]` (the muxer sink pad is also released; the release
gate is not touched). -/
def remove_input_elements (si : SourceInfo) : SourceInfo :=
  { si with before_muxer := [] }

/-- `NvDsPipeline._on_muxer_sink_pad_eos` (upstream EOS), with the
`_remove_input_elements` idle callback it schedules: `get_source` raises
`KeyError` when the id is no longer registered (the handler then aborts
without effect); otherwise the input elements are torn down. -/
def on_muxer_sink_pad_eos (s : PipeState) (sid : Nat) : PipeState :=
  match s.sources sid with
  | some si =>
    if si.registered then s.setSource sid (remove_input_elements si) else s
  | none => s

/-- `NvDsPipeline._remove_output_elements` effect on the stream's record:
`after_demuxer` elements are torn down and the list reset, the record is
removed from the registry (`remove_source`), `pad_idx` is cleared and the
release gate is set (`source_info.lock.set()`). -/
def remove_output_elements (si : SourceInfo) : SourceInfo :=
  { si with after_demuxer := [], registered := false, pad_idx := none, lock := true }

/-- `NvDsPipeline.on_last_pad_eos` (downstream EOS on the fakesink pad),
with the `_remove_output_elements` idle callback it schedules: tears down
the output elements, returns `pad_idx` to `self._free_pad_indices`
(appended at the end), clears it and sets the release gate.  The fakesink
(and its probe) exists only while the stream holds a pad index, so the
step fires only when `pad_idx` is assigned. -/
def on_last_pad_eos (s : PipeState) (sid : Nat) : PipeState :=
  match s.sources sid with
  | some si =>
    match si.pad_idx with
    | some i =>
      { sources := fun x => if x = sid then some (remove_output_elements si) else s.sources x,
        free_pad_indices := s.free_pad_indices ++ [i] }
    | none => s
  | none => s

/-- The lifecycle events a trace interleaves: a pad-added ("new stream")
event, a CAPS event carrying the negotiated width/height (and whether
`nvvideoconvert` accepts the caps), the upstream boundary EOS on the muxer
sink pad, and the downstream boundary EOS at the stream's fakesink. -/
inductive PipeEvent where
  | padAdded (sid : Nat)
  | sourceCaps (sid : Nat) (w h : Int) (fast_path_ok : Bool)
  | muxerSinkPadEos (sid : Nat)
  | lastPadEos (sid : Nat)
  deriving DecidableEq

/-- One event step of the pipeline. -/
def pipeStep (s : PipeState) : PipeEvent → PipeState
  | .padAdded sid => (on_source_added s sid).1
  | .sourceCaps sid w h fast => on_source_caps s sid w h fast
  | .muxerSinkPadEos sid => on_muxer_sink_pad_eos s sid
  | .lastPadEos sid => on_last_pad_eos s sid

/-- Run a trace of events. -/
def pipeRun (s : PipeState) (es : List PipeEvent) : PipeState :=
  es.foldl pipeStep s

/-- Initial pipeline state with capacity `m`: no stream seen, and
`self._free_pad_indices = list(range(len(self._demuxer_src_pads)))` where
`m` demuxer src pads were allocated (`max_parallel_streams`). -/
def pipeInit (m : Nat) : PipeState :=
  ⟨fun _ => none, List.range m⟩

/-- The stream has gone through its `RELEASED` step: record dropped from
the registry, post-batch elements torn down, `pad_idx` cleared, release
gate set, and the slot index present in the free pool exactly once. -/
def releasedCheck (s : PipeState) (sid i : Nat) : Bool :=
  (match s.sources sid with
   | some si =>
     !si.registered && si.after_demuxer.isEmpty && si.pad_idx.isNone && si.lock
   | none => false) && (s.free_pad_indices.count i == 1)

/-! ## Helper lemmas -/

/-- Banker's rounding moves a rational by at most one half. -/
theorem pyRound_sub_abs_le (q : ℚ) : |(pyRound q : ℚ) - q| ≤ 1 / 2 := by
  have h0 := Int.floor_le q
  have h1 := Int.lt_floor_add_one q
  unfold pyRound
  split_ifs with hlt hgt hev <;> rw [abs_le] <;> constructor <;> push_cast <;> linarith

/-- Rounding `x / 8` and scaling back by 8 yields a multiple of 8 within
distance 4 of `x`. -/
theorem pyRound_div_eight (x : ℤ) :
    pyRound ((x : ℚ) / 8) * 8 % 8 = 0 ∧ |pyRound ((x : ℚ) / 8) * 8 - x| ≤ 4 := by
  constructor
  · omega
  · have h := pyRound_sub_abs_le ((x : ℚ) / 8)
    have h8 : |(pyRound ((x : ℚ) / 8) : ℚ) * 8 - x| ≤ 4 := by
      have : (pyRound ((x : ℚ) / 8) : ℚ) * 8 - x =
          ((pyRound ((x : ℚ) / 8) : ℚ) - x / 8) * 8 := by ring
      rw [this, abs_mul]
      calc |(pyRound ((x : ℚ) / 8) : ℚ) - x / 8| * |(8 : ℚ)|
          ≤ (1 / 2) * 8 := by
            rw [abs_of_pos (by norm_num : (0 : ℚ) < 8)]
            exact mul_le_mul_of_nonneg_right h (by norm_num)
        _ = 4 := by norm_num
    have hc : ((|pyRound ((x : ℚ) / 8) * 8 - x| : ℤ) : ℚ) ≤ ((4 : ℤ) : ℚ) := by
      push_cast
      exact h8
    exact_mod_cast hc

/-! ## Claim theorems -/

/-- C10: for every aligned bounding box, setting `left` to `v` and reading
`left` returns exactly `v` while `width`, `height` and `y_center` are
unchanged; symmetrically for `top` (with `x_center` unchanged); and
`right = left + width`, `bottom = top + height`, so `tlbr` is
`(left, top, left + width, top + height)`. -/
theorem bbox_left_top_setters_tlbr (b : BBox) (v : ℚ) :
    ((b.setLeft v).left = v ∧ (b.setLeft v).width = b.width ∧
      (b.setLeft v).height = b.height ∧ (b.setLeft v).y_center = b.y_center) ∧
    ((b.setTop v).top = v ∧ (b.setTop v).width = b.width ∧
      (b.setTop v).height = b.height ∧ (b.setTop v).x_center = b.x_center) ∧
    b.right = b.left + b.width ∧ b.bottom = b.top + b.height ∧
    b.tlbr = (b.left, b.top, b.left + b.width, b.top + b.height) := by
  refine ⟨⟨?_, rfl, rfl, rfl⟩, ⟨?_, rfl, rfl, rfl⟩, ?_, ?_, ?_⟩
  · simp only [BBox.setLeft, BBox.left]; ring
  · simp only [BBox.setTop, BBox.top]; ring
  · simp only [BBox.right, BBox.left]; ring
  · simp only [BBox.bottom, BBox.top]; ring
  · simp only [BBox.tlbr, BBox.right, BBox.bottom, BBox.left, BBox.top, Prod.mk.injEq]
    exact ⟨trivial, trivial, by ring, by ring⟩

/-- C8: the PNG (block-constrained) output variant rounds each dimension of
the computed destination resolution independently to the nearest multiple
of 8 (each result dimension is a multiple of 8 within distance 4 of the
computed dimension), and on a computed destination of 101x202 it yields
104x200. -/
theorem png_dest_resolution_rounding :
    (∀ (fp : FrameParameters) (src : Resolution),
      (SourceOutputPng.dest_resolution fp src).width % 8 = 0 ∧
      (SourceOutputPng.dest_resolution fp src).height % 8 = 0 ∧
      |(SourceOutputPng.dest_resolution fp src).width -
        (SourceOutputWithFrame.dest_resolution fp src).width| ≤ 4 ∧
      |(SourceOutputPng.dest_resolution fp src).height -
        (SourceOutputWithFrame.dest_resolution fp src).height| ≤ 4) ∧
    SourceOutputPng.dest_resolution ⟨1280, 720, 1280, 720, none⟩ ⟨101, 202⟩ =
      ⟨104, 200⟩ := by
  constructor
  · intro fp src
    exact ⟨(pyRound_div_eight (SourceOutputWithFrame.dest_resolution fp src).width).1,
      (pyRound_div_eight (SourceOutputWithFrame.dest_resolution fp src).height).1,
      (pyRound_div_eight (SourceOutputWithFrame.dest_resolution fp src).width).2,
      (pyRound_div_eight (SourceOutputWithFrame.dest_resolution fp src).height).2⟩
  · show Resolution.mk (pyRound ((101 : ℚ) / 8) * 8) (pyRound ((202 : ℚ) / 8) * 8) = _
    unfold pyRound
    norm_num

/-- C9: a per-stream EOS event on a demuxer src pad is dropped (triggering
detach-and-forward) iff its parsed pad index is present and the receiving
pad is exactly the pad allocated for that index; in that case a still-linked
peer is unlinked and sent EOS; otherwise the event passes through with no
structural change and no EOS is forwarded. -/
theorem demuxer_eos_detach_iff (s : DemuxerState) (pad : Nat) (idx : Option Nat) :
    ((on_demuxer_src_pad_eos s pad idx).2.1 = PadProbeReturn.drop ↔
      ∃ i, idx = some i ∧ s.demuxer_src_pads[i]? = some pad) ∧
    (∀ i peer, idx = some i → s.demuxer_src_pads[i]? = some pad →
      s.peers pad = some peer →
      (on_demuxer_src_pad_eos s pad idx).1.peers pad = none ∧
      (on_demuxer_src_pad_eos s pad idx).2.2 = some peer) ∧
    ((on_demuxer_src_pad_eos s pad idx).2.1 = PadProbeReturn.pass →
      (on_demuxer_src_pad_eos s pad idx).1 = s ∧
      (on_demuxer_src_pad_eos s pad idx).2.2 = none) := by
  unfold on_demuxer_src_pad_eos
  rcases idx with _ | i
  · simp
  · by_cases h : s.demuxer_src_pads[i]? = some pad
    · rcases hp : s.peers pad with _ | peer
      · refine ⟨by simp [h, hp], ?_, by simp [h, hp]⟩
        intro i' peer' hi' _ hpeer'
        exact Option.noConfusion hpeer'
      · refine ⟨by simp [h, hp], ?_, by simp [h, hp]⟩
        intro i' peer' hi' _ hpeer'
        cases hpeer'
        simp [h, hp]
    · refine ⟨by simp [h], ?_, by simp [h]⟩
      intro i' peer' hi' hget' _
      cases hi'
      exact absurd hget' h

/-- Concrete run of `demuxer_eos_detach_iff`: one allocated pad `5` at index
0, linked to peer `9`. -/
def demuxWitnessState : DemuxerState :=
  ⟨[5], fun p => if p = 5 then some 9 else none⟩

/-- Witness for C9: on `demuxWitnessState`, EOS parsed to index 0 arriving
on pad 5 unlinks the peer 9 and forwards EOS to it. -/
theorem demuxer_eos_detach_iff_witness :
    (on_demuxer_src_pad_eos demuxWitnessState 5 (some 0)).1.peers 5 = none ∧
    (on_demuxer_src_pad_eos demuxWitnessState 5 (some 0)).2.2 = some 9 :=
  (demuxer_eos_detach_iff demuxWitnessState 5 (some 0)).2.1 0 9 rfl rfl rfl

/-- `update_object_ids` preserves the length of the object list. -/
theorem update_object_ids_length (objs : List NvDsObjMeta) (object_ids : String → Nat) :
    (update_object_ids objs object_ids).length = objs.length := by
  induction objs generalizing object_ids with
  | nil => rfl
  | cons o rest ih =>
    by_cases hid : o.object_id = UNTRACKED_OBJECT_ID <;>
      simp [update_object_ids, hid, ih]

/-- Generalized counter form: the identities assigned (in order) to the
untracked objects of a given label are the consecutive integers starting at
the counter's current value for that label. -/
theorem update_object_ids_untracked (objs : List NvDsObjMeta) (object_ids : String → Nat)
    (lbl : String) :
    ((objs.zip (update_object_ids objs object_ids)).filter
        (fun p => p.1.object_id == UNTRACKED_OBJECT_ID && p.1.obj_label == lbl)).map
        (fun p => p.2.object_id) =
      List.range' (object_ids lbl)
        ((objs.filter
          (fun o => o.object_id == UNTRACKED_OBJECT_ID && o.obj_label == lbl)).length) := by
  induction objs generalizing object_ids with
  | nil => simp [update_object_ids]
  | cons o rest ih =>
    by_cases hid : o.object_id = UNTRACKED_OBJECT_ID
    · by_cases hlb : o.obj_label = lbl
      · simp only [update_object_ids, if_pos hid, List.zip_cons_cons, List.filter_cons,
          List.filter, hid, hlb, beq_self_eq_true, Bool.and_self, if_pos, List.map_cons,
          List.length_cons, List.range'_succ]
        refine congrArg _ ?_
        rw [ih]
        simp [hlb]
      · simp only [update_object_ids, if_pos hid, List.zip_cons_cons, List.filter_cons]
        have hfb : (o.object_id == UNTRACKED_OBJECT_ID && o.obj_label == lbl) = false := by
          simp [hlb]
        simp only [hfb, Bool.false_eq_true, if_neg, ite_false]
        rw [ih]
        have hlb' : ¬lbl = o.obj_label := fun hh => hlb hh.symm
        simp [hlb']
    · simp only [update_object_ids, if_neg hid, List.zip_cons_cons, List.filter_cons]
      have hfb : (o.object_id == UNTRACKED_OBJECT_ID && o.obj_label == lbl) = false := by
        simp [hid]
      simp only [hfb, Bool.false_eq_true, if_neg, ite_false]
      exact ih object_ids

/-- Objects that already carry a persistent (non-sentinel) identity are left
untouched by the first loop. -/
theorem update_object_ids_tracked (objs : List NvDsObjMeta) (object_ids : String → Nat) :
    ∀ p ∈ objs.zip (update_object_ids objs object_ids),
      p.1.object_id ≠ UNTRACKED_OBJECT_ID → p.2 = p.1 := by
  induction objs generalizing object_ids with
  | nil => simp [update_object_ids]
  | cons o rest ih =>
    by_cases hid : o.object_id = UNTRACKED_OBJECT_ID <;>
      simp only [update_object_ids, hid, if_pos, if_neg, ite_true, ite_false,
        List.zip_cons_cons, List.mem_cons] <;>
      rintro p (rfl | hmem) hp
    · exact absurd hid hp
    · exact ih _ p hmem hp
    · rfl
    · exact ih _ p hmem hp

/-- C5: within one frame, for every label, the objects carrying the
sentinel untracked identity are assigned identities 0, 1, 2, ...
consecutively in iteration order (the counter scoped per label, starting at
0), while objects with a persistent tracked identity are left unchanged
(and hence do not advance the fallback counter for their label). -/
theorem fallback_identity_assignment (objs : List NvDsObjMeta) (lbl : String) :
    (((objs.zip (correct_object_ids objs)).filter
        (fun p => p.1.object_id == UNTRACKED_OBJECT_ID && p.1.obj_label == lbl)).map
        (fun p => p.2.object_id) =
      List.range ((objs.filter
        (fun o => o.object_id == UNTRACKED_OBJECT_ID && o.obj_label == lbl)).length)) ∧
    (∀ p ∈ objs.zip (correct_object_ids objs),
      p.1.object_id ≠ UNTRACKED_OBJECT_ID → p.2 = p.1) ∧
    (correct_object_ids objs).length = objs.length := by
  refine ⟨?_, update_object_ids_tracked objs _, update_object_ids_length objs _⟩
  rw [List.range_eq_range']
  exact update_object_ids_untracked objs (fun _ => 0) lbl

/-- The spec's own example frame: three untracked `"car"` objects followed
by a `"car"` object with persistent identity 7. -/
def carObjs : List NvDsObjMeta :=
  [⟨UNTRACKED_OBJECT_ID, "car"⟩, ⟨UNTRACKED_OBJECT_ID, "car"⟩,
   ⟨UNTRACKED_OBJECT_ID, "car"⟩, ⟨7, "car"⟩]

/-- Witness for C5: on `carObjs` the untracked `"car"` objects receive
exactly the identities `[0, 1, 2]` and the tracked object keeps identity
7. -/
theorem fallback_identity_assignment_witness :
    ((carObjs.zip (correct_object_ids carObjs)).filter
        (fun p => p.1.object_id == UNTRACKED_OBJECT_ID && p.1.obj_label == "car")).map
        (fun p => p.2.object_id) = [0, 1, 2] ∧
    ((⟨7, "car"⟩, ⟨7, "car"⟩) : NvDsObjMeta × NvDsObjMeta).2 =
      (⟨7, "car"⟩ : NvDsObjMeta) := by
  have h := fallback_identity_assignment carObjs "car"
  refine ⟨?_, h.2.1 (⟨7, "car"⟩, ⟨7, "car"⟩) (by decide) (by decide)⟩
  rw [h.1]
  decide

/-- The second loop of `update_frame_meta` collects exactly the
non-degenerate objects, in order. -/
theorem update_frame_meta_objects_eq (internal_attrs : List (String × String))
    (dest : Resolution) (objs : List NvDsObjectRecord) :
    update_frame_meta_objects internal_attrs dest objs =
      (objs.filter
        (fun o => decide (¬is_empty_primary_object internal_attrs dest o))).map
        (collect_object internal_attrs) := by
  induction objs with
  | nil => rfl
  | cons o rest ih =>
    by_cases h : is_empty_primary_object internal_attrs dest o <;>
      simp [update_frame_meta_objects, h, ih, List.filter_cons]

/-- C6: an object is omitted from the frame's output object list iff its
label is the primary whole-frame label, its converted bounding box equals
exactly `(dest_w / 2, dest_h / 2, dest_w, dest_h)` and its attribute list is
empty after internal-attribute filtering (the output is the in-order
image of the non-degenerate objects); an object meeting the label and
geometry conditions but retaining at least one attribute is kept. -/
theorem degenerate_primary_object_filter (internal_attrs : List (String × String))
    (dest : Resolution) (objs : List NvDsObjectRecord) :
    (update_frame_meta_objects internal_attrs dest objs =
      (objs.filter
        (fun o => decide (¬is_empty_primary_object internal_attrs dest o))).map
        (collect_object internal_attrs)) ∧
    (∀ o ∈ objs, o.obj_label = PRIMARY_OBJECT_LABEL →
      ((collect_object internal_attrs o).bbox_xc,
        (collect_object internal_attrs o).bbox_yc,
        (collect_object internal_attrs o).bbox_w,
        (collect_object internal_attrs o).bbox_h) =
        ((dest.width : ℚ) / 2, (dest.height : ℚ) / 2,
          (dest.width : ℚ), (dest.height : ℚ)) →
      (collect_object internal_attrs o).attributes ≠ [] →
      collect_object internal_attrs o ∈
        update_frame_meta_objects internal_attrs dest objs) := by
  refine ⟨update_frame_meta_objects_eq internal_attrs dest objs, ?_⟩
  intro o ho _ _ hattr
  rw [update_frame_meta_objects_eq]
  refine List.mem_map_of_mem _ (List.mem_filter.mpr ⟨ho, ?_⟩)
  refine decide_eq_true ?_
  intro hdeg
  exact hattr hdeg.2.2

/-- Destination resolution used by the C6 witness. -/
def degDest : Resolution := ⟨100, 200⟩

/-- C6 witness object: labelled with the primary whole-frame label, with
whole-frame geometry for `degDest`, but carrying one attribute. -/
def keptPrimaryObj : NvDsObjectRecord :=
  ⟨PRIMARY_OBJECT_LABEL, ((100 : Int) : ℚ) / 2, ((200 : Int) : ℚ) / 2,
    ((100 : Int) : ℚ), ((200 : Int) : ℚ), [[⟨"m", "a", "v"⟩]]⟩

/-- Witness for C6: `keptPrimaryObj` matches the primary label and the
whole-frame geometry yet is retained, because its attribute list is
non-empty. -/
theorem degenerate_primary_object_filter_witness :
    collect_object [] keptPrimaryObj ∈
      update_frame_meta_objects [] degDest [keptPrimaryObj] :=
  (degenerate_primary_object_filter [] degDest [keptPrimaryObj]).2
    keptPrimaryObj (List.mem_singleton_self _) rfl rfl (by decide)

/-- C7: an attribute whose `(producer, name)` pair was registered as
internal-only by `add_element` never appears in any output object record,
across any number of batches; and every attribute whose pair is not
registered is converted and appended, in order. -/
theorem internal_attribute_filtering (elements : List ModelElementConfig)
    (batches : List (List (Resolution × List NvDsObjectRecord))) :
    (∀ batch ∈ batches, ∀ frame ∈ batch,
      ∀ om ∈ update_frame_meta_objects (register_internal_attrs elements)
        frame.1 frame.2,
      ∀ a ∈ om.attributes,
        (a.element_name, a.name) ∉ register_internal_attrs elements) ∧
    (∀ o : NvDsObjectRecord,
      (collect_object (register_internal_attrs elements) o).attributes =
        (o.attr_lists.flatten.filter
          (fun a => decide ((a.element_name, a.name) ∉ register_internal_attrs elements))).map
          nvds_attr_meta_output_converter) := by
  constructor
  · intro batch _ frame _ om hom a ha
    rw [update_frame_meta_objects_eq] at hom
    obtain ⟨o, -, rfl⟩ := List.mem_map.mp hom
    simp only [collect_object, nvds_obj_meta_output_converter] at ha
    obtain ⟨a0, ha0, rfl⟩ := List.mem_map.mp ha
    have hf := of_decide_eq_true (List.mem_filter.mp ha0).2
    simpa [nvds_attr_meta_output_converter] using hf
  · intro o
    rfl

/-- Model element used by the C7 witness: producer `"X"` with attribute
`"Y"` flagged internal and `"Z"` not. -/
def internalElemConfig : ModelElementConfig :=
  ⟨"X", [⟨"Y", true⟩, ⟨"Z", false⟩], true⟩

/-- Object used by the C7 witness, carrying attributes `("X", "Y")`
(internal) and `("X", "Z")` (external). -/
def attrObj : NvDsObjectRecord :=
  ⟨"person", 1, 2, 3, 4, [[⟨"X", "Y", "v1"⟩, ⟨"X", "Z", "v2"⟩]]⟩

/-- Witness for C7: the surviving attribute `("X", "Z")` of `attrObj` is
not registered internal. -/
theorem internal_attribute_filtering_witness :
    (("X", "Z") : String × String) ∉ register_internal_attrs [internalElemConfig] :=
  (internal_attribute_filtering [internalElemConfig]
      [[(⟨10, 10⟩, [attrObj])]]).1
    [(⟨10, 10⟩, [attrObj])] (by decide)
    (⟨10, 10⟩, [attrObj]) (by decide)
    (collect_object (register_internal_attrs [internalElemConfig]) attrObj) (by decide)
    ⟨"X", "Z", "v2"⟩ (by decide)

/-! ## Slot-pool invariant -/

/-- The slot-pool invariant: the free-index list has no duplicates, an
index held by some stream is never simultaneously free, and no index is
held by two streams. -/
def PipeInv (s : PipeState) : Prop :=
  s.free_pad_indices.Nodup ∧
  (∀ sid si i, s.sources sid = some si → si.pad_idx = some i →
    i ∉ s.free_pad_indices) ∧
  (∀ sid₁ sid₂ si₁ si₂ i, s.sources sid₁ = some si₁ → s.sources sid₂ = some si₂ →
    si₁.pad_idx = some i → si₂.pad_idx = some i → sid₁ = sid₂)

theorem pipeInv_init (m : Nat) : PipeInv (pipeInit m) := by
  refine ⟨List.nodup_range m, ?_, ?_⟩ <;> intro sid <;> intros <;> simp_all [pipeInit]

theorem caps_update_info_pad (si : SourceInfo) (w h : Int) (fast : Bool) :
    (caps_update_info si w h fast).pad_idx = si.pad_idx := by
  unfold caps_update_info
  dsimp only
  split <;> rfl

/-- Common preservation step: overwriting one registry entry and replacing
the free list preserves `PipeInv` under local side conditions. -/
theorem pipeInv_update (s : PipeState) (sid : Nat) (si' : SourceInfo) (free : List Nat)
    (h3 : ∀ sid₁ sid₂ si₁ si₂ i, s.sources sid₁ = some si₁ → s.sources sid₂ = some si₂ →
      si₁.pad_idx = some i → si₂.pad_idx = some i → sid₁ = sid₂)
    (hNodup : free.Nodup)
    (hdisj : ∀ x sx j, x ≠ sid → s.sources x = some sx → sx.pad_idx = some j → j ∉ free)
    (hpadfree : ∀ j, si'.pad_idx = some j → j ∉ free)
    (hpaduniq : ∀ x sx j, s.sources x = some sx → sx.pad_idx = some j →
      si'.pad_idx = some j → x = sid) :
    PipeInv { sources := fun x => if x = sid then some si' else s.sources x,
              free_pad_indices := free } := by
  refine ⟨hNodup, ?_, ?_⟩
  · intro x sx j hx hpx
    dsimp only at hx ⊢
    by_cases hx0 : x = sid
    · subst hx0
      rw [if_pos rfl] at hx
      obtain rfl := Option.some.inj hx
      exact hpadfree j hpx
    · rw [if_neg hx0] at hx
      exact hdisj x sx j hx0 hx hpx
  · intro x y sx sy j hx hy hpx hpy
    dsimp only at hx hy
    by_cases hx0 : x = sid <;> by_cases hy0 : y = sid
    · rw [hx0, hy0]
    · subst hx0
      rw [if_pos rfl] at hx
      obtain rfl := Option.some.inj hx
      rw [if_neg hy0] at hy
      exact (hpaduniq y sy j hy hpy hpx).symm
    · subst hy0
      rw [if_pos rfl] at hy
      obtain rfl := Option.some.inj hy
      rw [if_neg hx0] at hx
      exact hpaduniq x sx j hx hpx hpy
    · rw [if_neg hx0] at hx
      rw [if_neg hy0] at hy
      exact h3 x y sx sy j hx hy hpx hpy

/-- `PipeState.setSource` form of `pipeInv_update` for updates that keep the
free list and do not invent a pad index. -/
theorem pipeInv_setSource (s : PipeState) (sid : Nat) (si' : SourceInfo)
    (h : PipeInv s)
    (hpad : ∀ i, si'.pad_idx = some i → ∃ si, s.sources sid = some si ∧ si.pad_idx = some i) :
    PipeInv (s.setSource sid si') := by
  obtain ⟨h1, h2, h3⟩ := h
  refine pipeInv_update s sid si' s.free_pad_indices h3 h1 ?_ ?_ ?_
  · intro x sx j _ hx hpx
    exact h2 x sx j hx hpx
  · intro j hpj
    obtain ⟨si, hsi, hpi⟩ := hpad j hpj
    exact h2 sid si j hsi hpi
  · intro x sx j hx hpx hpj
    obtain ⟨si, hsi, hpi⟩ := hpad j hpj
    exact h3 x sid sx si j hx hsi hpx hpi

theorem pipeInv_on_source_added (s : PipeState) (sid : Nat) (h : PipeInv s) :
    PipeInv (on_source_added s sid).1 := by
  unfold on_source_added
  split
  next si hs =>
    split
    next hreg =>
      split
      next hlock => exact pipeInv_setSource s sid _ h (fun i hpi => ⟨si, hs, hpi⟩)
      next hlock => exact h
    next hreg => exact pipeInv_setSource s sid _ h (fun i hpi => Option.noConfusion hpi)
  next hs => exact pipeInv_setSource s sid _ h (fun i hpi => Option.noConfusion hpi)

theorem pipeInv_on_source_caps (s : PipeState) (sid : Nat) (w hgt : Int) (fast : Bool)
    (h : PipeInv s) : PipeInv (on_source_caps s sid w hgt fast) := by
  obtain ⟨h1, h2, h3⟩ := h
  unfold on_source_caps
  split
  next hs => exact ⟨h1, h2, h3⟩
  next si hs =>
    split
    case isTrue hrp =>
      split
      next hp hf => exact ⟨h1, h2, h3⟩
      next i rest hp hf =>
        unfold on_source_caps_body
        rw [hf] at h1
        refine pipeInv_update s sid _ rest h3 (List.Nodup.of_cons h1) ?_ ?_ ?_
        · intro x sx j' hx0 hx hpx
          have hj := h2 x sx j' hx hpx
          rw [hf] at hj
          exact fun hm => hj (List.mem_cons_of_mem i hm)
        · intro j' hpj
          rw [caps_update_info_pad] at hpj
          have hpj' : (some i : Option Nat) = some j' := hpj
          obtain rfl := Option.some.inj hpj'
          exact (List.nodup_cons.mp h1).1
        · intro x sx j' hx hpx hpj
          rw [caps_update_info_pad] at hpj
          have hpj' : (some i : Option Nat) = some j' := hpj
          obtain rfl := Option.some.inj hpj'
          have hj := h2 x sx _ hx hpx
          rw [hf] at hj
          exact absurd (List.mem_cons_self _ _) hj
      next j free hp =>
        unfold on_source_caps_body
        refine pipeInv_update s sid _ s.free_pad_indices h3 h1 ?_ ?_ ?_
        · intro x sx j' _ hx hpx
          exact h2 x sx j' hx hpx
        · intro j' hpj
          rw [caps_update_info_pad] at hpj
          exact h2 sid si j' hs hpj
        · intro x sx j' hx hpx hpj
          rw [caps_update_info_pad] at hpj
          exact h3 x sid sx si j' hx hs hpx hpj
    case isFalse hrp => exact ⟨h1, h2, h3⟩

theorem pipeInv_on_muxer_sink_pad_eos (s : PipeState) (sid : Nat) (h : PipeInv s) :
    PipeInv (on_muxer_sink_pad_eos s sid) := by
  unfold on_muxer_sink_pad_eos
  split
  next si hs =>
    split
    next hreg => exact pipeInv_setSource s sid _ h (fun i hpi => ⟨si, hs, hpi⟩)
    next hreg => exact h
  next hs => exact h

theorem pipeInv_on_last_pad_eos (s : PipeState) (sid : Nat) (h : PipeInv s) :
    PipeInv (on_last_pad_eos s sid) := by
  obtain ⟨h1, h2, h3⟩ := h
  unfold on_last_pad_eos
  split
  next si hs =>
    split
    next i hp =>
      have hi : i ∉ s.free_pad_indices := h2 sid si i hs hp
      refine pipeInv_update s sid _ (s.free_pad_indices ++ [i]) h3 ?_ ?_ ?_ ?_
      · simp [List.nodup_append, h1, hi]
      · intro x sx j hx0 hx hpx
        have hj : j ∉ s.free_pad_indices := h2 x sx j hx hpx
        have hji : j ≠ i := by
          intro hji
          subst hji
          exact hx0 (h3 x sid sx si j hx hs hpx hp)
        simp [List.mem_append, hj, hji]
      · intro j hpj
        exact Option.noConfusion hpj
      · intro x sx j hx hpx hpj
        exact Option.noConfusion hpj
    next hp => exact ⟨h1, h2, h3⟩
  next hs => exact ⟨h1, h2, h3⟩

theorem pipeInv_step (s : PipeState) (e : PipeEvent) (h : PipeInv s) :
    PipeInv (pipeStep s e) := by
  cases e with
  | padAdded sid => exact pipeInv_on_source_added s sid h
  | sourceCaps sid w hgt fast => exact pipeInv_on_source_caps s sid w hgt fast h
  | muxerSinkPadEos sid => exact pipeInv_on_muxer_sink_pad_eos s sid h
  | lastPadEos sid => exact pipeInv_on_last_pad_eos s sid h

theorem pipeInv_run (s : PipeState) (es : List PipeEvent) (h : PipeInv s) :
    PipeInv (pipeRun s es) := by
  induction es generalizing s with
  | nil => exact h
  | cons e rest ih => exact ih (pipeStep s e) (pipeInv_step s e h)

/-- Releasing the output side of a stream that holds a pad index yields the
RELEASED state, with the index returned exactly once. -/
theorem releasedCheck_on_last_pad_eos (t : PipeState) (sid i : Nat) (sj : SourceInfo)
    (hsj : t.sources sid = some sj) (hpad : sj.pad_idx = some i)
    (hcz : t.free_pad_indices.count i = 0) :
    releasedCheck (on_last_pad_eos t sid) sid i = true := by
  simp only [on_last_pad_eos, hsj, hpad]
  simp [releasedCheck, remove_output_elements, List.count_append, hcz]

/-- Event trace admitting stream 0 into slot 0 of a capacity-1 pipeline. -/
def adm0 : List PipeEvent :=
  [PipeEvent.padAdded 0, PipeEvent.sourceCaps 0 640 480 true]

/-- Stream 0's record after `adm0`. -/
def siActive : SourceInfo :=
  ⟨0, some 0, [ElemKind.nvvideoconvert, ElemKind.capsfilter],
   [ElemKind.queue, ElemKind.fakesink], some ⟨640, 480⟩, some ⟨640, 480⟩,
   true, true, false⟩

/-- `adm0` followed by the downstream boundary EOS, with the upstream
boundary EOS never processed. -/
def downstreamFirstTrace : List PipeEvent :=
  adm0 ++ [PipeEvent.lastPadEos 0]

/-- Stream 0's record after `downstreamFirstTrace`. -/
def drainedOutputInfo : SourceInfo :=
  ⟨0, none, [ElemKind.nvvideoconvert, ElemKind.capsfilter], [],
   some ⟨640, 480⟩, some ⟨640, 480⟩, true, false, false⟩

/-- C1 counterexample: in `downstreamFirstTrace` the downstream EOS is
processed while the upstream EOS is never processed, yet stream 0 reaches
the full RELEASED step — post-batch elements torn down, slot 0 returned to
the pool exactly once, `pad_idx` cleared, release gate set — with its
pre-batch elements still allocated.  The handlers do not buffer the first
boundary signal and wait for the second, refuting the claim that RELEASED
happens only after both EOS signals have been processed. -/
theorem released_without_upstream_eos_processed :
    releasedCheck (pipeRun (pipeInit 1) downstreamFirstTrace) 0 0 = true ∧
    (pipeRun (pipeInit 1) downstreamFirstTrace).sources 0 = some drainedOutputInfo ∧
    drainedOutputInfo.before_muxer ≠ [] ∧
    PipeEvent.muxerSinkPadEos 0 ∉ downstreamFirstTrace := by
  decide

/-- C1 (amended): the RELEASED step — tearing down the post-batch elements,
returning the slot index, clearing `pad_idx` and setting the release gate —
is performed by the downstream-EOS handler alone, whether the upstream EOS
is processed after it (on an already-released stream the upstream handler's
registry lookup fails and it has no effect) or before it; in both orderings
the slot index is returned to the pool exactly once. -/
theorem released_on_downstream_eos_either_order (m : Nat) (es : List PipeEvent)
    (sid i : Nat) (si : SourceInfo)
    (hsi : (pipeRun (pipeInit m) es).sources sid = some si)
    (hpad : si.pad_idx = some i) :
    releasedCheck (pipeRun (pipeRun (pipeInit m) es)
      [PipeEvent.lastPadEos sid, PipeEvent.muxerSinkPadEos sid]) sid i = true ∧
    releasedCheck (pipeRun (pipeRun (pipeInit m) es)
      [PipeEvent.muxerSinkPadEos sid, PipeEvent.lastPadEos sid]) sid i = true := by
  have hInv := pipeInv_run (pipeInit m) es (pipeInv_init m)
  have hni : i ∉ (pipeRun (pipeInit m) es).free_pad_indices :=
    hInv.2.1 sid si i hsi hpad
  have hcz : (pipeRun (pipeInit m) es).free_pad_indices.count i = 0 :=
    List.count_eq_zero.mpr hni
  constructor
  · show releasedCheck
      (on_muxer_sink_pad_eos (on_last_pad_eos (pipeRun (pipeInit m) es) sid) sid) sid i = true
    have l1 : (on_last_pad_eos (pipeRun (pipeInit m) es) sid).sources sid =
        some (remove_output_elements si) := by
      simp [on_last_pad_eos, hsi, hpad]
    have e2 : on_muxer_sink_pad_eos
        (on_last_pad_eos (pipeRun (pipeInit m) es) sid) sid =
        on_last_pad_eos (pipeRun (pipeInit m) es) sid := by
      simp [on_muxer_sink_pad_eos, l1, remove_output_elements]
    rw [e2]
    exact releasedCheck_on_last_pad_eos _ sid i si hsi hpad hcz
  · show releasedCheck
      (on_last_pad_eos (on_muxer_sink_pad_eos (pipeRun (pipeInit m) es) sid) sid) sid i = true
    rcases hreg : si.registered
    · have e1 : on_muxer_sink_pad_eos (pipeRun (pipeInit m) es) sid =
          pipeRun (pipeInit m) es := by
        simp [on_muxer_sink_pad_eos, hsi, hreg]
      rw [e1]
      exact releasedCheck_on_last_pad_eos _ sid i si hsi hpad hcz
    · have e1 : on_muxer_sink_pad_eos (pipeRun (pipeInit m) es) sid =
          (pipeRun (pipeInit m) es).setSource sid (remove_input_elements si) := by
        simp [on_muxer_sink_pad_eos, hsi, hreg]
      rw [e1]
      refine releasedCheck_on_last_pad_eos _ sid i (remove_input_elements si) ?_ hpad hcz
      simp [PipeState.setSource]

/-- Witness for C1: from the concrete admitted state `adm0`, processing the
two boundary EOS signals in either order releases stream 0 with slot 0
returned exactly once. -/
theorem released_on_downstream_eos_either_order_witness :
    releasedCheck (pipeRun (pipeRun (pipeInit 1) adm0)
      [PipeEvent.lastPadEos 0, PipeEvent.muxerSinkPadEos 0]) 0 0 = true ∧
    releasedCheck (pipeRun (pipeRun (pipeInit 1) adm0)
      [PipeEvent.muxerSinkPadEos 0, PipeEvent.lastPadEos 0]) 0 0 = true :=
  released_on_downstream_eos_either_order 1 adm0 0 0 siActive (by decide) rfl

/-- C2: in every reachable state, each slot index is held by at most one
attached stream, and an index held by a stream is absent from the free
pool until it is returned on that stream's release. -/
theorem slot_index_no_double_assignment (m : Nat) (es : List PipeEvent)
    (sid₁ sid₂ i : Nat) (si₁ si₂ : SourceInfo)
    (h₁ : (pipeRun (pipeInit m) es).sources sid₁ = some si₁)
    (h₂ : (pipeRun (pipeInit m) es).sources sid₂ = some si₂)
    (hp₁ : si₁.pad_idx = some i) (hp₂ : si₂.pad_idx = some i) :
    sid₁ = sid₂ ∧ i ∉ (pipeRun (pipeInit m) es).free_pad_indices := by
  have hInv := pipeInv_run (pipeInit m) es (pipeInv_init m)
  exact ⟨hInv.2.2 sid₁ sid₂ si₁ si₂ i h₁ h₂ hp₁ hp₂,
    hInv.2.1 sid₁ si₁ i h₁ hp₁⟩

/-- Witness for C2: after `adm0`, slot 0 is held only by stream 0 and is
not in the free pool. -/
theorem slot_index_no_double_assignment_witness :
    (0 : Nat) = 0 ∧ (0 : Nat) ∉ (pipeRun (pipeInit 1) adm0).free_pad_indices :=
  slot_index_no_double_assignment 1 adm0 0 0 0 siActive siActive
    (by decide) (by decide) rfl rfl

/-- C3: a new attachment event for a stream id still present in the
registry waits on that id's release gate — when the gate is cleared the
handler re-checks after a fixed 5-second interval, leaving the state
unchanged rather than failing — and proceeds (clearing the gate and arming
the CAPS probe) only once the gate is set; while the CAPS probe is not
armed, the CAPS handler performs no slot acquisition. -/
theorem reattach_waits_on_release_gate (s : PipeState) (sid : Nat) (si : SourceInfo)
    (h : s.sources sid = some si) (hreg : si.registered = true) :
    (si.lock = false → on_source_added s sid = (s, AddDisposition.waitingRetry 5)) ∧
    (si.lock = true →
      (on_source_added s sid).2 = AddDisposition.proceeded ∧
      (on_source_added s sid).1.sources sid =
        some { si with lock := false, caps_probe := true }) ∧
    (si.caps_probe = false →
      ∀ (w hgt : Int) (fast : Bool), on_source_caps s sid w hgt fast = s) := by
  refine ⟨?_, ?_, ?_⟩
  · intro hlock
    simp [on_source_added, h, hreg, hlock]
  · intro hlock
    constructor <;> simp [on_source_added, h, hreg, hlock, PipeState.setSource]
  · intro hcp w hgt fast
    simp [on_source_caps, h, hcp]

/-- Stream record whose prior incarnation has not yet released (gate
cleared), used by the C3 witness. -/
def siWaiting : SourceInfo := ⟨0, none, [], [], none, none, false, true, false⟩

/-- State holding only `siWaiting`, used by the C3 witness. -/
def pipeWaitState : PipeState := ⟨fun x => if x = 0 then some siWaiting else none, []⟩

/-- Witness for C3: with the release gate cleared, the attachment handler
leaves the state unchanged and reports a 5-second polling retry. -/
theorem reattach_waits_on_release_gate_witness :
    on_source_added pipeWaitState 0 = (pipeWaitState, AddDisposition.waitingRetry 5) :=
  (reattach_waits_on_release_gate pipeWaitState 0 siWaiting rfl rfl).1 rfl

/-- C4 counterexample: after `downstreamFirstTrace`, stream 0's release
gate is set although its pre-batch (`before_muxer`) elements are still
allocated — refuting "the release gate is set iff no pre-batch and no
post-batch elements remain allocated". -/
theorem gate_set_with_input_elements_allocated :
    (pipeRun (pipeInit 1) downstreamFirstTrace).sources 0 = some drainedOutputInfo ∧
    drainedOutputInfo.lock = true ∧
    drainedOutputInfo.before_muxer ≠ [] ∧
    ¬(drainedOutputInfo.lock = true ↔
      (drainedOutputInfo.before_muxer = [] ∧ drainedOutputInfo.after_demuxer = [])) := by
  decide

/-- C4 (amended): the release step (`_remove_output_elements`) sets the
gate with the post-batch element list emptied and `pad_idx` cleared, but
without consulting the pre-batch element list, which it leaves untouched;
the upstream teardown (`_remove_input_elements`) empties the pre-batch
element list without touching the gate or the post-batch elements.  The
gate being set therefore guarantees no post-batch elements remain from that
release, but not that pre-batch elements are gone. -/
theorem gate_set_by_output_release_only (s : PipeState) (sid i : Nat) (si : SourceInfo)
    (h : s.sources sid = some si) (hpad : si.pad_idx = some i) :
    ((on_last_pad_eos s sid).sources sid = some (remove_output_elements si) ∧
      (remove_output_elements si).lock = true ∧
      (remove_output_elements si).after_demuxer = [] ∧
      (remove_output_elements si).pad_idx = none ∧
      (remove_output_elements si).before_muxer = si.before_muxer) ∧
    (si.registered = true →
      (on_muxer_sink_pad_eos s sid).sources sid = some (remove_input_elements si) ∧
      (remove_input_elements si).before_muxer = [] ∧
      (remove_input_elements si).lock = si.lock ∧
      (remove_input_elements si).after_demuxer = si.after_demuxer) := by
  constructor
  · refine ⟨?_, rfl, rfl, rfl, rfl⟩
    simp [on_last_pad_eos, h, hpad]
  · intro hreg
    refine ⟨?_, rfl, rfl, rfl⟩
    simp [on_muxer_sink_pad_eos, h, hreg, PipeState.setSource]

/-- Witness for C4 (amended): concrete release of stream 0 from the
admitted state `adm0`. -/
theorem gate_set_by_output_release_only_witness :
    (on_last_pad_eos (pipeRun (pipeInit 1) adm0) 0).sources 0 =
      some (remove_output_elements siActive) ∧
    (remove_output_elements siActive).lock = true ∧
    (remove_output_elements siActive).before_muxer = siActive.before_muxer := by
  have h := gate_set_by_output_release_only (pipeRun (pipeInit 1) adm0) 0 0 siActive
    (by decide) rfl
  exact ⟨h.1.1, h.1.2.1, h.1.2.2.2.2⟩

end Savant
